import Mathlib

/-!
# go-islands: the page server of `backend/main.go`

A shallow embedding of `backend/main.go`.  Go strings are Lean `String`s (sequences of
Unicode scalar values); the process environment, the clock, the template set and the
asset library are explicit arguments; an `http.ResponseWriter` is a value that is
threaded through the handlers.
-/

set_option autoImplicit false

namespace GoIslands

/-! ## Standard-library strings -/

/-- Go `strings.HasSuffix`: `len(s) >= len(suffix) && s[len(s)-len(suffix):] == suffix`. -/
def HasSuffix (s suffix : String) : Bool :=
  decide (suffix.data.length ≤ s.data.length) &&
    decide (s.data.drop (s.data.length - suffix.data.length) = suffix.data)

/-- The ASCII fast path of Go `strings.ToLower`: `'A'..'Z'` are shifted by `'a' - 'A'`. -/
def asciiLower (c : Char) : Char :=
  if 65 ≤ c.toNat ∧ c.toNat ≤ 90 then Char.ofNat (c.toNat + 32) else c

/-- Go `strings.ToLower`: a string of ASCII bytes only is lowered bytewise, any other string
is mapped rune by rune through `unicode.ToLower`, the table of the Unicode database, which
is an argument here. -/
def ToLower (unicodeToLower : Char → Char) (s : String) : String :=
  if s.data.all (fun c => decide (c.toNat < 128)) then
    String.mk (s.data.map asciiLower)
  else
    String.mk (s.data.map unicodeToLower)

/-! ## Environment helpers -/

/-- The process environment as `os.LookupEnv` sees it: `none` when the variable is not set. -/
abbrev Environ := String → Option String

/-- `getEnv` of `main.go`. -/
def getEnv (environ : Environ) (key fallback : String) : String :=
  match environ key with
  | some value => value
  | none => fallback

/-- `getEnvBool` of `main.go`. -/
def getEnvBool (unicodeToLower : Char → Char) (environ : Environ) (key : String)
    (fallback : Bool) : Bool :=
  match environ key with
  | some value => ToLower unicodeToLower value == "true" || value == "1"
  | none => fallback

/-! ## Standard-library paths (Unix) -/

/-- One step of Go `filepath.Clean` over the path elements kept so far (innermost first):
empty and `.` elements are dropped, `..` removes the preceding element that is not `..`,
is dropped at the root, and is kept otherwise. -/
def cleanStep (rooted : Bool) (kept : List (List Char)) (elem : List Char) : List (List Char) :=
  if elem = [] ∨ elem = ['.'] then kept
  else if elem = ['.', '.'] then
    match kept with
    | top :: below => if top = ['.', '.'] then elem :: kept else below
    | [] => if rooted then [] else [elem]
  else elem :: kept

/-- Go `filepath.Clean` with separator `/`: the shortest path name equivalent to `path` by
purely lexical processing; the empty result is `.`. -/
def Clean (path : String) : String :=
  let rooted := path.data.head? == some '/'
  let kept := (path.data.splitOn '/').foldl (cleanStep rooted) []
  let out := (if rooted then ['/'] else []) ++ List.intercalate ['/'] kept.reverse
  if out = [] then "." else String.mk out

/-- Go `filepath.Join`: the elements from the first non-empty one on are joined with the
separator and the result is cleaned; the empty string when every element is empty. -/
def Join : List String → String
  | [] => ""
  | e :: rest =>
    if e = "" then Join rest
    else Clean (String.mk (List.intercalate ['/'] ((e :: rest).map String.data)))

/-! ## HTTP responses -/

/-- Go `http.Header`, a map from header name to its values. -/
abbrev Header := List (String × List String)

/-- Go `Header.Del`. -/
def Header.Del (h : Header) (key : String) : Header :=
  h.filter (fun kv => kv.1 != key)

/-- Go `Header.Set`: the values of `key` are replaced by the single `value`. -/
def Header.Set (h : Header) (key value : String) : Header :=
  (key, [value]) :: Header.Del h key

/-- Go `Header.Values`. -/
def Header.Values (h : Header) (key : String) : List String :=
  match h.find? (fun kv => kv.1 == key) with
  | some kv => kv.2
  | none => []

/-- An `http.ResponseWriter`: the header map, whether the status line has been sent and with
which code, and the body bytes written so far. -/
structure ResponseWriter where
  header : Header
  wroteHeader : Bool
  status : Nat
  body : String
  deriving DecidableEq, Repr

/-- A response nothing has been written to. -/
def ResponseWriter.fresh : ResponseWriter :=
  { header := [], wroteHeader := false, status := 0, body := "" }

/-- Call `w.Header().Set(key, value)`. -/
def ResponseWriter.setHeader (w : ResponseWriter) (key value : String) : ResponseWriter :=
  { w with header := Header.Set w.header key value }

/-- Call `w.WriteHeader(code)`: the status is sent once, a later call is superfluous and
ignored. -/
def ResponseWriter.WriteHeader (w : ResponseWriter) (code : Nat) : ResponseWriter :=
  if w.wroteHeader then w else { w with wroteHeader := true, status := code }

/-- Call `w.Write(data)`: if `WriteHeader` has not been called yet, the write first sends
`WriteHeader(http.StatusOK)`. -/
def ResponseWriter.Write (w : ResponseWriter) (data : String) : ResponseWriter :=
  let w1 := w.WriteHeader 200
  { w1 with body := w1.body ++ data }

/-- Go `http.Error`: plain-text headers, `WriteHeader(code)`, then the message and a newline. -/
def Error (w : ResponseWriter) (error : String) (code : Nat) : ResponseWriter :=
  let w1 := { w with header := Header.Del w.header "Content-Length" }
  let w2 := w1.setHeader "Content-Type" "text/plain; charset=utf-8"
  let w3 := w2.setHeader "X-Content-Type-Options" "nosniff"
  (w3.WriteHeader code).Write (error ++ "\n")

/-- The constant `http.StatusInternalServerError`. -/
def StatusInternalServerError : Nat := 500

/-- An `*http.Request`, as far as a handler can read it. -/
structure Request where
  Method : String
  Path : String
  RawQuery : String
  Header : Header
  Body : String
  deriving DecidableEq, Repr

/-- An `http.Handler`: what `ServeHTTP(w, r)` does to the response. -/
abbrev Handler := ResponseWriter → Request → ResponseWriter

/-! ## cacheControl -/

/-- The middleware `cacheControl` of `main.go`. -/
def cacheControl (next : Handler) : Handler := fun w r =>
  let path := r.Path
  let w1 :=
    if HasSuffix path ".js" || HasSuffix path ".css" then
      w.setHeader "Cache-Control" "public, max-age=31536000, immutable"
    else if HasSuffix path ".png" || HasSuffix path ".jpg" ||
        HasSuffix path ".svg" || HasSuffix path ".webp" then
      w.setHeader "Cache-Control" "public, max-age=86400"
    else
      w.setHeader "Cache-Control" "public, max-age=3600"
  next w1 r

/-! ## The asset library -/

/-- The fields of `vite.ViteConfig` that `main` assigns; a field left out holds the zero
value of its Go type. -/
structure ViteConfig where
  Environment : String := ""
  FS : Option Unit := none
  DevServerURL : String := ""
  EntryPoint : String := ""
  Platform : String := ""
  AssetsPath : String := ""
  ManifestPath : String := ""
  deriving DecidableEq, Repr

/-- Modelled from the spec: one record of the AssetManifest of the asset library (the
library is not part of `main.go`): the output file, the ordered CSS files and the ordered
imported chunks, the latter named by their manifest keys. -/
structure ManifestEntry where
  file : String
  css : List String
  imports : List String
  deriving DecidableEq, Repr

/-- Modelled from the spec: the AssetManifest of the asset library, a mapping from
entry-point path to its record, in the order of the JSON document. -/
abbrev AssetManifest := List (String × ManifestEntry)

/-- Modelled from the spec: the asset provider `vite.ViteAsset` of the asset library: the
configuration it was created from and the manifest, loaded once in production mode and
absent in development mode. -/
structure ViteAsset where
  config : ViteConfig
  manifest : Option AssetManifest
  deriving DecidableEq, Repr

/-- Modelled from the spec: manifest lookup of an entry-point key (the asset library is not
part of `main.go`). -/
def AssetManifest.lookup (m : AssetManifest) (key : String) : Option ManifestEntry :=
  match m with
  | [] => none
  | (k, e) :: rest => if k = key then some e else AssetManifest.lookup rest key

/-- Modelled from the spec: the kinds of tag descriptor of ResolvedAssets. -/
inductive TagKind where
  | script
  | module
  | stylesheet
  | modulepreload
  deriving DecidableEq, Repr

/-- Modelled from the spec: a tag descriptor of ResolvedAssets, a kind and a url. -/
structure Tag where
  kind : TagKind
  url : String
  deriving DecidableEq, Repr

/-- Modelled from the spec: the failure modes of the Asset Resolver. -/
inductive ResolveError where
  | ManifestLoadError (msg : String)
  | EntryNotFoundError (entryPoint : String)
  deriving DecidableEq, Repr

/-- Modelled from the spec: the mode of the Asset Resolver, a closed two-variant tag:
development with the dev-server base URL, production with the loaded manifest. -/
inductive Mode where
  | development (devServerURL : String)
  | production (manifest : AssetManifest)
  deriving DecidableEq, Repr

/-- Modelled from the spec: deduplicating union, the files of `new` not yet in `acc` are
appended in their order. -/
def addNew (acc new : List String) : List String :=
  new.foldl (fun a x => if x ∈ a then a else a ++ [x]) acc

/-- Modelled from the spec: the state of the walk over the chunk imports: the manifest keys
visited, the CSS files and the chunk files collected, each in first-seen order. -/
structure Walk where
  seen : List String
  css : List String
  chunks : List String
  deriving DecidableEq, Repr

/-- The number of manifest records whose key has not been visited. -/
def unvisited : AssetManifest → List String → Nat
  | [], _ => 0
  | (k, _) :: rest, seen => (if k ∈ seen then 0 else 1) + unvisited rest seen

/-- Modelled from the spec: the transitive, depth-first walk over the chunk imports. `stack`
holds the manifest keys still to visit, `st` what has been collected. A key already visited is
skipped, which deduplicates chunks and ends import cycles; a key the manifest does not hold
contributes nothing. -/
def walk (m : AssetManifest) (stack : List String) (st : Walk) : Walk :=
  match stack with
  | [] => st
  | key :: rest =>
    if hs : key ∈ st.seen then walk m rest st
    else
      match hl : m.lookup key with
      | none => walk m rest st
      | some e =>
        walk m (e.imports ++ rest)
          { seen := key :: st.seen, css := addNew st.css e.css, chunks := st.chunks ++ [e.file] }
termination_by (unvisited m st.seen, stack.length)
decreasing_by
  · exact Prod.Lex.right _ (by simp)
  · exact Prod.Lex.right _ (by simp)
  · apply Prod.Lex.left
    have hle : ∀ (m : AssetManifest) (seen : List String) (key : String),
        unvisited m (key :: seen) ≤ unvisited m seen := by
      intro m seen key
      induction m with
      | nil => simp [unvisited]
      | cons kv rest ih =>
        obtain ⟨k, v⟩ := kv
        simp only [unvisited, List.mem_cons]
        by_cases h1 : k ∈ seen
        · simp only [h1, or_true, if_true]
          omega
        · by_cases h2 : k = key
          · simp only [h1, h2, true_or, if_true, if_false]
            omega
          · simp only [h1, h2, or_self, if_false]
            omega
    have hlt : ∀ (m : AssetManifest) (seen : List String) (key : String) (e : ManifestEntry),
        key ∉ seen → m.lookup key = some e →
        unvisited m (key :: seen) < unvisited m seen := by
      intro m seen key e hk
      induction m with
      | nil => intro hl; simp [AssetManifest.lookup] at hl
      | cons kv rest ih =>
        intro hl
        obtain ⟨k, v⟩ := kv
        by_cases hkk : k = key
        · subst hkk
          have h := hle rest seen k
          simp only [unvisited, List.mem_cons, true_or, if_true, hk, if_false]
          omega
        · have ih2 := ih (by simpa [AssetManifest.lookup, hkk] using hl)
          simp only [unvisited, List.mem_cons]
          by_cases h1 : k ∈ seen
          · simp only [h1, or_true, if_true]
            omega
          · simp only [h1, hkk, or_self, if_false]
            omega
    exact hlt m st.seen _ _ hs hl

/-- Modelled from the spec: `Resolve(entryPoint, mode)` of the Asset Resolver (the asset
library is not part of `main.go`). Development: a single module tag for the entry point under
the dev-server base URL (no HMR tag configured). Production: an entry point the manifest does
not hold is an `EntryNotFoundError`; otherwise the CSS files of the entry and of its
transitively imported chunks, deduplicated in first-seen depth-first order, the imported
chunks, and last the entry script. -/
def Resolve (entryPoint : String) (mode : Mode) : Except ResolveError (List Tag) :=
  match mode with
  | .development devServerURL =>
    .ok [{ kind := .module, url := devServerURL ++ "/" ++ entryPoint }]
  | .production manifest =>
    match manifest.lookup entryPoint with
    | none => .error (.EntryNotFoundError entryPoint)
    | some e =>
      let st := walk manifest e.imports
        { seen := [entryPoint], css := addNew [] e.css, chunks := [] }
      .ok (st.css.map (fun u => { kind := .stylesheet, url := u }) ++
        st.chunks.map (fun u => { kind := .modulepreload, url := u }) ++
        [{ kind := .script, url := e.file }])

/-! ## Pages -/

/-- A value of Go type `interface{}` as it occurs in `InitialData`. -/
inductive Value where
  | int (n : Int)
  | str (s : String)
  | map (fields : List (String × Value))

/-- `PageData` of `main.go`. -/
structure PageData where
  Title : String
  CurrentTime : String
  InitialData : List (String × Value)
  ENV : String
  Vite : ViteAsset

/-- What one call `Templates.ExecuteTemplate(w, name, data)` does: the `Write` calls it makes
on `w`, in order, and the error it returns (`none` for `nil`). A template stops at its first
error, with the output before it already written. -/
structure TemplateRun where
  writes : List String
  err : Option String
  deriving DecidableEq, Repr

/-- What a page handler reads from outside `main.go`: the parsed template set `Templates`
and the layout `time.RFC3339` applied to a clock reading (seconds since the epoch). -/
structure Runtime where
  ExecuteTemplate : String → PageData → TemplateRun
  formatRFC3339 : Nat → String

/-- What one request to a page handler leaves behind: the response, the lines given to the
logger, and the data the template was executed with. -/
structure Served where
  w : ResponseWriter
  logged : List String
  data : PageData

/-- The `PageData` literal in the handler of `servePage`. -/
def pageData (rt : Runtime) (title env : String) (viteAsset : ViteAsset) (now : Nat) :
    PageData :=
  { Title := title
    CurrentTime := rt.formatRFC3339 now
    ENV := env
    Vite := viteAsset
    InitialData :=
      [("user", Value.map [("id", Value.int 123), ("name", Value.str "John Doe")])] }

/-- The handler returned by `servePage` of `main.go`, run on `(w, r)` when the clock
reads `now`. -/
def servePage (rt : Runtime) (templateName title env : String) (viteAsset : ViteAsset)
    (now : Nat) (w : ResponseWriter) (_r : Request) : Served :=
  let w1 := w.setHeader "Content-Type" "text/html; charset=utf-8"
  let w2 := if env != "development" then
      w1.setHeader "Cache-Control" "no-cache, must-revalidate"
    else w1
  let data := pageData rt title env viteAsset now
  let run := rt.ExecuteTemplate templateName data
  let w3 := run.writes.foldl ResponseWriter.Write w2
  match run.err with
  | some err =>
    let logged := ["Template error: " ++ err]
    if env == "development" then
      { w := Error w3 ("Template Error: " ++ err) StatusInternalServerError
        logged := logged, data := data }
    else
      { w := Error w3 "Internal Server Error" StatusInternalServerError
        logged := logged, data := data }
  | none => { w := w3, logged := [], data := data }

/-! ## main -/

/-- `Config` of `main.go`. -/
structure Config where
  Env : String
  Port : String
  ServerURL : String
  DevServerURL : String
  AssetsPath : String
  LogRequests : Bool
  deriving DecidableEq, Repr

/-- The configuration `main` reads from the environment (its first statement). -/
def loadConfig (unicodeToLower : Char → Char) (environ : Environ) : Config :=
  { Env := getEnv environ "GO_ENV" "development"
    Port := getEnv environ "PORT" "8080"
    ServerURL := getEnv environ "SERVER_URL" "http://localhost:8080"
    DevServerURL := getEnv environ "DEV_SERVER_URL" "http://localhost:5173"
    AssetsPath := getEnv environ "ASSETS_PATH" "./static"
    LogRequests := getEnvBool unicodeToLower environ "LOG_REQUESTS" true }

/-- The `viteConfig` that `main` builds from `config` before it calls `vite.NewViteAsset`. -/
def viteConfig (config : Config) : ViteConfig :=
  let viteConfig : ViteConfig := { Environment := config.Env, FS := none }
  if config.Env == "development" then
    { viteConfig with DevServerURL := config.DevServerURL }
  else
    { viteConfig with
      EntryPoint := "src/islands-client.js"
      Platform := "react"
      AssetsPath := config.AssetsPath
      ManifestPath := Join [config.AssetsPath, "manifest.json"] }

/-- What `main` meets outside `main.go`: the environment, the Unicode lower-case table, the
result of parsing the embedded templates, the asset library, whether `os.Stat` reports a path
as not existing, and the error `ListenAndServe` ends with. -/
structure Host where
  environ : Environ
  unicodeToLower : Char → Char
  ParseFS : Except String Runtime
  NewViteAsset : ViteConfig → Except String ViteAsset
  notExist : String → Bool
  ListenAndServe : String → String

/-- The effects of `main` on the outside, in program order. -/
inductive Event where
  | newViteAsset (config : ViteConfig)
  | logged (line : String)
  | mkdirAll (path : String)
  | serverConstructed (addr : String)
  | listenAndServe (addr : String)
  deriving DecidableEq, Repr

/-- How `main` ends: `template.Must` panics, or `log.Fatalf` / `logger.Fatal` print the
message and exit with status 1. -/
inductive Exit where
  | panic (msg : String)
  | fatal (msg : String)
  deriving DecidableEq, Repr

/-- One run of `main`. -/
structure Run where
  events : List Event
  exit : Exit
  deriving DecidableEq, Repr

/-- The function `main` of `main.go`: the configuration, the templates, the asset provider,
the static directory, and the server. The router and its middleware are values built
without effect on the outside and are left out. -/
def main (p : Host) : Run :=
  let config := loadConfig p.unicodeToLower p.environ
  match p.ParseFS with
  | .error e => { events := [], exit := .panic e }
  | .ok _ =>
    let vc := viteConfig config
    match p.NewViteAsset vc with
    | .error err =>
      { events := [.newViteAsset vc], exit := .fatal ("Failed to create Vite asset: " ++ err) }
    | .ok _ =>
      let staticPath := config.AssetsPath
      let static :=
        if p.notExist staticPath then
          [Event.logged ("Static directory " ++ staticPath ++ " not found, creating it"),
           Event.mkdirAll staticPath]
        else []
      let addr := ":" ++ config.Port
      { events := [.newViteAsset vc] ++ static ++
          [.logged ("Server starting on port " ++ config.Port ++ " in " ++ config.Env ++ " mode"),
           .serverConstructed addr, .listenAndServe addr]
        exit := .fatal (p.ListenAndServe addr) }

/-! ## Reference notions used to state the properties -/

/-- The path `path` ends in `ext`: it is some stem followed by `ext`. -/
def EndsIn (path ext : String) : Prop := ∃ stem : String, path = stem ++ ext

/-- The character `c` is the letter `lower` in either case. -/
def isLetter (c lower upper : Char) : Bool := c == lower || c == upper

/-- The value `v` equals `true` when letter case is ignored. -/
def equalsTrueIgnoringCase (v : String) : Bool :=
  match v.data with
  | [a, b, c, d] =>
    isLetter a 't' 'T' && isLetter b 'r' 'R' && isLetter c 'u' 'U' && isLetter d 'e' 'E'
  | _ => false

/-- A fact of the Unicode database about the table `unicode.ToLower`: no rune outside ASCII
has `t`, `r`, `u` or `e` as its lower case. -/
def NoForeignLower (unicodeToLower : Char → Char) : Prop :=
  ∀ c : Char, 128 ≤ c.toNat → unicodeToLower c ∉ ['t', 'r', 'u', 'e']

/-- A lower-case table: ASCII letters, the Kelvin sign and the dotted capital I are lowered,
every other rune is kept. -/
def sampleToLower (c : Char) : Char :=
  if c.toNat = 0x212A then 'k' else if c.toNat = 0x130 then 'i' else asciiLower c

/-- An environment in which only `PORT` is set, to `8080`. -/
def portSet : Environ := fun key => if key = "PORT" then some "8080" else none

/-- An environment in which only `LOG_REQUESTS` is set, to `TRUE`. -/
def logRequestsSet : Environ := fun key => if key = "LOG_REQUESTS" then some "TRUE" else none

/-! ## Sample inputs -/

/-- A handler that writes the body `ok`. -/
def okHandler : Handler := fun w _ => w.Write "ok"

/-- A `GET` request for `path`. -/
def getRequest (path : String) : Request :=
  { Method := "GET", Path := path, RawQuery := "", Header := [], Body := "" }

/-- A production asset provider. -/
def productionAsset : ViteAsset :=
  { config :=
      { Environment := "production", EntryPoint := "src/islands-client.js", Platform := "react"
        AssetsPath := "./static", ManifestPath := "static/manifest.json" }
    manifest := some [("src/islands-client.js",
      { file := "assets/islands-client-abc123.js", css := ["assets/islands-client-def456.css"]
        imports := [] })] }

/-- A template set whose pages write their heading and then fail on a field that
`PageData` does not have. -/
def failingMidway : Runtime :=
  { ExecuteTemplate := fun name data =>
      { writes := ["<h1>" ++ data.Title ++ "</h1>"]
        err := some ("template: " ++ name ++ ": executing at <.Missing>: no such field") }
    formatRFC3339 := fun _ => "2024-05-01T12:00:00Z" }

/-- A template set whose pages fail before they write anything. -/
def failingAtOnce : Runtime :=
  { ExecuteTemplate := fun name _ =>
      { writes := [], err := some ("html/template: " ++ name ++ " is undefined") }
    formatRFC3339 := fun _ => "2024-05-01T12:00:00Z" }

/-- A production configuration as `loadConfig` reads it from `GO_ENV=production`. -/
def productionConfig : Config :=
  { Env := "production", Port := "8080", ServerURL := "http://localhost:8080"
    DevServerURL := "http://localhost:5173", AssetsPath := "./static", LogRequests := true }

/-- The default configuration, read from an environment without any of the variables. -/
def developmentConfig : Config :=
  { Env := "development", Port := "8080", ServerURL := "http://localhost:8080"
    DevServerURL := "http://localhost:5173", AssetsPath := "./static", LogRequests := true }

/-- A production host whose manifest cannot be parsed: the asset library reports the error
for whatever configuration it is given. -/
def malformedManifestHost : Host :=
  { environ := fun key => if key = "GO_ENV" then some "production" else none
    unicodeToLower := sampleToLower
    ParseFS := .ok failingAtOnce
    NewViteAsset := fun _ => .error "invalid character in manifest"
    notExist := fun _ => false
    ListenAndServe := fun _ => "listen tcp :8080: bind: address already in use" }

/-- The manifest of the scenario of the specification. -/
def scenarioManifest : AssetManifest :=
  [("src/main.js",
    { file := "assets/main-abc123.js", css := ["assets/main-def456.css"], imports := [] })]

/-! ## Theorems -/

/-! ### getEnv -/

/-- C7, as stated, fails: with `PORT=8080` set, `getEnv "PORT" "8080"` returns `8080`, which
is the fallback, although the variable is set. -/
theorem getEnv_fallback_iff_unset_fails :
    ¬ (getEnv portSet "PORT" "8080" = "8080" ↔ portSet "PORT" = none) := by
  decide

/-- C7, amended: `getEnv` returns the fallback when the variable is not set, and the set
value unchanged when it is set (the empty string included); so the result equals the
fallback exactly when the variable is not set or is set to the fallback itself. -/
theorem getEnv_spec (environ : Environ) (key fallback : String) :
    (environ key = none → getEnv environ key fallback = fallback) ∧
    (∀ value, environ key = some value → getEnv environ key fallback = value) ∧
    (environ key = some "" → getEnv environ key fallback = "") ∧
    (getEnv environ key fallback = fallback ↔
      environ key = none ∨ environ key = some fallback) := by
  unfold getEnv
  cases h : environ key with
  | none => simp
  | some v => simp

/-- Witness of `getEnv_spec`: `PORT=8080` with fallback `8080`. -/
theorem getEnv_spec_witness :
    portSet "PORT" = some "8080" ∧ getEnv portSet "PORT" "8080" = "8080" ∧
    getEnv portSet "GO_ENV" "development" = "development" :=
  ⟨by decide, (getEnv_spec portSet "PORT" "8080").2.1 "8080" (by decide),
    (getEnv_spec portSet "GO_ENV" "development").1 (by decide)⟩

/-! ### getEnvBool -/

theorem asciiLower_upper (n : Nat) (h1 : 65 ≤ n) (h2 : n ≤ 90) :
    asciiLower (Char.ofNat n) = Char.ofNat (n + 32) := by
  interval_cases n <;> decide

theorem asciiLower_eq_iff (c l u : Char) (hl : 97 ≤ l.toNat ∧ l.toNat ≤ 122)
    (hu : u.toNat + 32 = l.toNat) :
    asciiLower c = l ↔ c = l ∨ c = u := by
  have hc : Char.ofNat c.toNat = c := Char.ofNat_toNat c
  have hl2 : Char.ofNat l.toNat = l := Char.ofNat_toNat l
  have hu2 : Char.ofNat u.toNat = u := Char.ofNat_toNat u
  by_cases h : 65 ≤ c.toNat ∧ c.toNat ≤ 90
  · have h3 := asciiLower_upper c.toNat h.1 h.2
    rw [hc] at h3
    rw [h3]
    constructor
    · intro h4
      right
      have h5 : (Char.ofNat (c.toNat + 32)).toNat = l.toNat := by rw [h4]
      have h6 : (Char.ofNat (c.toNat + 32)).toNat = c.toNat + 32 := by
        obtain ⟨h1, h2⟩ := h
        generalize c.toNat = n at h1 h2
        interval_cases n <;> decide
      rw [h6] at h5
      have h7 : c.toNat = u.toNat := by omega
      rw [← hc, ← hu2, h7]
    · rintro (h4 | h4)
      · subst h4; omega
      · subst h4; rw [hu, hl2]
  · have h3 : asciiLower c = c := by simp [asciiLower, h]
    rw [h3]
    constructor
    · intro h4; exact Or.inl h4
    · rintro (h4 | h4)
      · exact h4
      · subst h4; exfalso; apply h; omega

theorem isLetter_iff (c l u : Char) : isLetter c l u = true ↔ c = l ∨ c = u := by
  simp [isLetter]

theorem map_asciiLower_true (cs : List Char) :
    cs.map asciiLower = ['t', 'r', 'u', 'e'] ↔
      equalsTrueIgnoringCase (String.mk cs) = true := by
  have ht := fun c => asciiLower_eq_iff c 't' 'T' (by decide) (by decide)
  have hr := fun c => asciiLower_eq_iff c 'r' 'R' (by decide) (by decide)
  have hu := fun c => asciiLower_eq_iff c 'u' 'U' (by decide) (by decide)
  have he := fun c => asciiLower_eq_iff c 'e' 'E' (by decide) (by decide)
  match cs with
  | [] => simp [equalsTrueIgnoringCase]
  | [_] => simp [equalsTrueIgnoringCase]
  | [_, _] => simp [equalsTrueIgnoringCase]
  | [_, _, _] => simp [equalsTrueIgnoringCase]
  | [a, b, c, d] =>
    simp only [equalsTrueIgnoringCase, List.map_cons, List.map_nil, List.cons.injEq, and_true,
      Bool.and_eq_true, isLetter_iff, ht, hr, hu, he]
    tauto
  | _ :: _ :: _ :: _ :: _ :: _ => simp [equalsTrueIgnoringCase]

theorem equalsTrueIgnoringCase_ascii (v : String) (h : equalsTrueIgnoringCase v = true) :
    ∀ c ∈ v.data, c.toNat < 128 := by
  unfold equalsTrueIgnoringCase at h
  split at h
  · rename_i a b c d heq
    simp only [Bool.and_eq_true, isLetter_iff] at h
    obtain ⟨⟨⟨ha, hb⟩, hc⟩, hd⟩ := h
    intro x hx
    rw [heq] at hx
    simp only [List.mem_cons, List.mem_singleton, List.not_mem_nil, or_false] at hx
    rcases hx with rfl | rfl | rfl | rfl
    · rcases ha with rfl | rfl <;> decide
    · rcases hb with rfl | rfl <;> decide
    · rcases hc with rfl | rfl <;> decide
    · rcases hd with rfl | rfl <;> decide
  · exact absurd h (by simp)

theorem mk_eq_mk_iff (a b : List Char) : String.mk a = String.mk b ↔ a = b :=
  ⟨fun h => congrArg String.data h, fun h => by rw [h]⟩

theorem ToLower_eq_true_iff (unicodeToLower : Char → Char)
    (hU : NoForeignLower unicodeToLower) (v : String) :
    ToLower unicodeToLower v = "true" ↔ equalsTrueIgnoringCase v = true := by
  have hlit : ("true" : String) = String.mk ['t', 'r', 'u', 'e'] := by decide
  unfold ToLower
  by_cases hall : v.data.all (fun c => decide (c.toNat < 128)) = true
  · rw [if_pos hall, hlit, mk_eq_mk_iff]
    exact map_asciiLower_true v.data
  · rw [if_neg hall, hlit, mk_eq_mk_iff]
    constructor
    · intro hmap
      exfalso
      apply hall
      rw [List.all_eq_true]
      intro c hc
      by_contra hlt
      have hge : 128 ≤ c.toNat := by
        simp only [decide_eq_true_eq] at hlt
        omega
      have hmem : unicodeToLower c ∈ v.data.map unicodeToLower := List.mem_map_of_mem _ hc
      rw [hmap] at hmem
      exact hU c hge hmem
    · intro heq
      exfalso
      apply hall
      rw [List.all_eq_true]
      intro c hc
      simpa using equalsTrueIgnoringCase_ascii v heq c hc

/-- C8: `getEnvBool` returns the fallback when the variable is not set; when it is set to
`value`, it returns true exactly when `value` equals `true` ignoring letter case or equals
`1`, whatever the fallback. -/
theorem getEnvBool_spec (unicodeToLower : Char → Char) (hU : NoForeignLower unicodeToLower)
    (environ : Environ) (key : String) (fallback : Bool) :
    (environ key = none → getEnvBool unicodeToLower environ key fallback = fallback) ∧
    (∀ value, environ key = some value →
      (getEnvBool unicodeToLower environ key fallback = true ↔
        (equalsTrueIgnoringCase value = true ∨ value = "1")) ∧
      getEnvBool unicodeToLower environ key fallback =
        getEnvBool unicodeToLower environ key (!fallback)) := by
  unfold getEnvBool
  constructor
  · intro h
    rw [h]
  · intro value h
    rw [h]
    refine ⟨?_, rfl⟩
    simp only [Bool.or_eq_true, beq_iff_eq, ToLower_eq_true_iff unicodeToLower hU value]

theorem sampleToLower_noForeign : NoForeignLower sampleToLower := by
  intro c hc
  unfold sampleToLower
  by_cases h1 : c.toNat = 0x212A
  · rw [if_pos h1]; decide
  · rw [if_neg h1]
    by_cases h2 : c.toNat = 0x130
    · rw [if_pos h2]; decide
    · rw [if_neg h2]
      have h3 : asciiLower c = c := by
        unfold asciiLower
        rw [if_neg]
        omega
      rw [h3]
      intro hmem
      simp only [List.mem_cons, List.mem_singleton, List.not_mem_nil, or_false] at hmem
      rcases hmem with rfl | rfl | rfl | rfl <;> revert hc <;> decide

/-- Witness of `getEnvBool_spec`: `LOG_REQUESTS=TRUE` with fallback false, and an unset
variable. -/
theorem getEnvBool_spec_witness :
    NoForeignLower sampleToLower ∧ logRequestsSet "LOG_REQUESTS" = some "TRUE" ∧
    (getEnvBool sampleToLower logRequestsSet "LOG_REQUESTS" false = true ↔
      (equalsTrueIgnoringCase "TRUE" = true ∨ "TRUE" = "1")) ∧
    getEnvBool sampleToLower logRequestsSet "OTHER" true = true :=
  ⟨sampleToLower_noForeign, by decide,
    ((getEnvBool_spec sampleToLower sampleToLower_noForeign logRequestsSet
      "LOG_REQUESTS" false).2 "TRUE" (by decide)).1,
    (getEnvBool_spec sampleToLower sampleToLower_noForeign logRequestsSet
      "OTHER" true).1 (by decide)⟩

/-! ### cacheControl -/

theorem HasSuffix_iff (s suffix : String) : HasSuffix s suffix = true ↔ EndsIn s suffix := by
  unfold HasSuffix EndsIn
  simp only [Bool.and_eq_true, decide_eq_true_eq]
  constructor
  · rintro ⟨_, hdrop⟩
    refine ⟨String.mk (s.data.take (s.data.length - suffix.data.length)), ?_⟩
    apply String.ext
    rw [String.data_append]
    show s.data = List.take (s.data.length - suffix.data.length) s.data ++ suffix.data
    have hn : ∀ n, List.drop n s.data = suffix.data →
        s.data = List.take n s.data ++ suffix.data := by
      intro n hd
      rw [← hd, List.take_append_drop]
    exact hn _ hdrop
  · rintro ⟨stem, rfl⟩
    rw [String.data_append, List.length_append]
    refine ⟨by omega, ?_⟩
    have h : stem.data.length + suffix.data.length - suffix.data.length = stem.data.length := by
      omega
    rw [h, List.drop_left]

theorem EndsIn_getLast (s suffix : String) (h : EndsIn s suffix) (c : Char)
    (hc : suffix.data.getLast? = some c) : s.data.getLast? = some c := by
  obtain ⟨stem, rfl⟩ := h
  rw [String.data_append, List.getLast?_append, hc]
  rfl

theorem not_script_of_image (path : String)
    (h : EndsIn path ".png" ∨ EndsIn path ".jpg" ∨ EndsIn path ".svg" ∨ EndsIn path ".webp") :
    ¬ (EndsIn path ".js" ∨ EndsIn path ".css") := by
  intro hs
  have hs2 : path.data.getLast? = some 's' := by
    rcases hs with hs | hs
    · exact EndsIn_getLast path ".js" hs 's' (by decide)
    · exact EndsIn_getLast path ".css" hs 's' (by decide)
  rcases h with h | h | h | h
  · have := EndsIn_getLast path ".png" h 'g' (by decide)
    rw [hs2] at this
    exact absurd this (by decide)
  · have := EndsIn_getLast path ".jpg" h 'g' (by decide)
    rw [hs2] at this
    exact absurd this (by decide)
  · have := EndsIn_getLast path ".svg" h 'g' (by decide)
    rw [hs2] at this
    exact absurd this (by decide)
  · have := EndsIn_getLast path ".webp" h 'p' (by decide)
    rw [hs2] at this
    exact absurd this (by decide)

theorem Values_setHeader (w : ResponseWriter) (key value : String) :
    Header.Values (w.setHeader key value).header key = [value] := by
  simp [ResponseWriter.setHeader, Header.Set, Header.Values]

/-- C6: for every request path, `cacheControl` sets the `Cache-Control` header to exactly one
value and then runs the wrapped handler on the same request: the year-long immutable policy
when the path ends in `.js` or `.css`, the one-day policy when it ends in `.png`, `.jpg`,
`.svg` or `.webp`, and the one-hour policy for every other path. -/
theorem cacheControl_spec (next : Handler) (w : ResponseWriter) (r : Request) :
    (EndsIn r.Path ".js" ∨ EndsIn r.Path ".css" →
      cacheControl next w r =
        next (w.setHeader "Cache-Control" "public, max-age=31536000, immutable") r) ∧
    (EndsIn r.Path ".png" ∨ EndsIn r.Path ".jpg" ∨ EndsIn r.Path ".svg" ∨
        EndsIn r.Path ".webp" →
      cacheControl next w r = next (w.setHeader "Cache-Control" "public, max-age=86400") r) ∧
    (¬ (EndsIn r.Path ".js" ∨ EndsIn r.Path ".css" ∨ EndsIn r.Path ".png" ∨
        EndsIn r.Path ".jpg" ∨ EndsIn r.Path ".svg" ∨ EndsIn r.Path ".webp") →
      cacheControl next w r = next (w.setHeader "Cache-Control" "public, max-age=3600") r) ∧
    (∀ value, Header.Values (w.setHeader "Cache-Control" value).header "Cache-Control" =
      [value]) := by
  have hcode : ∀ ext, (HasSuffix r.Path ext = true) = EndsIn r.Path ext :=
    fun ext => propext (HasSuffix_iff r.Path ext)
  refine ⟨?_, ?_, ?_, fun value => Values_setHeader w _ value⟩
  · intro h
    have h1 : (HasSuffix r.Path ".js" || HasSuffix r.Path ".css") = true := by
      simpa only [Bool.or_eq_true, hcode] using h
    simp only [cacheControl, h1, if_true]
  · intro h
    have h0 := not_script_of_image r.Path h
    have h1 : ¬ (HasSuffix r.Path ".js" || HasSuffix r.Path ".css") = true := by
      simpa only [Bool.or_eq_true, hcode] using h0
    have h2 : (HasSuffix r.Path ".png" || HasSuffix r.Path ".jpg" ||
        HasSuffix r.Path ".svg" || HasSuffix r.Path ".webp") = true := by
      simp only [Bool.or_eq_true, hcode]
      tauto
    simp only [cacheControl, h1, h2, if_true, if_false, Bool.false_eq_true]
  · intro h
    have h1 : ¬ (HasSuffix r.Path ".js" || HasSuffix r.Path ".css") = true := by
      simp only [Bool.or_eq_true, hcode]
      tauto
    have h2 : ¬ (HasSuffix r.Path ".png" || HasSuffix r.Path ".jpg" ||
        HasSuffix r.Path ".svg" || HasSuffix r.Path ".webp") = true := by
      simp only [Bool.or_eq_true, hcode]
      tauto
    simp only [cacheControl, h1, h2, if_false, Bool.false_eq_true]

/-- Witness of `cacheControl_spec`: a script, an image and a font, the response carrying
an older `Cache-Control` value. -/
theorem cacheControl_spec_witness :
    cacheControl okHandler (ResponseWriter.fresh.setHeader "Cache-Control" "no-store")
        (getRequest "/assets/app-1a2b.js") =
      { header := [("Cache-Control", ["public, max-age=31536000, immutable"])]
        wroteHeader := true, status := 200, body := "ok" } ∧
    cacheControl okHandler (ResponseWriter.fresh.setHeader "Cache-Control" "no-store")
        (getRequest "/assets/logo.webp") =
      { header := [("Cache-Control", ["public, max-age=86400"])]
        wroteHeader := true, status := 200, body := "ok" } ∧
    cacheControl okHandler (ResponseWriter.fresh.setHeader "Cache-Control" "no-store")
        (getRequest "/assets/font.woff2") =
      { header := [("Cache-Control", ["public, max-age=3600"])]
        wroteHeader := true, status := 200, body := "ok" } := by
  refine ⟨?_, ?_, ?_⟩
  · rw [(cacheControl_spec okHandler _ (getRequest "/assets/app-1a2b.js")).1
      (Or.inl ⟨"/assets/app-1a2b", by decide⟩)]
    decide
  · rw [(cacheControl_spec okHandler _ (getRequest "/assets/logo.webp")).2.1
      (Or.inr (Or.inr (Or.inr ⟨"/assets/logo", by decide⟩)))]
    decide
  · rw [(cacheControl_spec okHandler _ (getRequest "/assets/font.woff2")).2.2.1
      (by
        simp only [← HasSuffix_iff]
        decide)]
    decide

/-! ### servePage -/

/-- C1 at a template that fails after its first write: the write has sent status 200, the
`WriteHeader(500)` of `http.Error` is ignored, and the message is appended to the partial
page; the handler does not answer with status 500 and the body is not the generic message. -/
theorem servePage_error_after_output :
    (servePage failingMidway "home.html" "React Islands Demo" "production" productionAsset
        0 ResponseWriter.fresh (getRequest "/")).w.status = 200 ∧
    (servePage failingMidway "home.html" "React Islands Demo" "production" productionAsset
        0 ResponseWriter.fresh (getRequest "/")).w.body =
      "<h1>React Islands Demo</h1>Internal Server Error\n" ∧
    (servePage failingMidway "home.html" "React Islands Demo" "development" productionAsset
        0 ResponseWriter.fresh (getRequest "/")).w.status = 200 := by
  decide

theorem Error_fresh (w : ResponseWriter) (msg : String) (code : Nat)
    (hw : w.wroteHeader = false) :
    (Error w msg code).status = code ∧ (Error w msg code).body = w.body ++ (msg ++ "\n") := by
  simp [Error, ResponseWriter.Write, ResponseWriter.WriteHeader, ResponseWriter.setHeader, hw]

/-- The error policy for a template that fails before it writes anything, on a response
whose status has not been sent: the status is 500, and the body gains the line
`Template Error: <err>` in development and the line `Internal Server Error`, whatever the
error, in every other environment; the error is logged in full in both. -/
theorem servePage_error_before_output (rt : Runtime) (templateName title env : String)
    (viteAsset : ViteAsset) (now : Nat) (w : ResponseWriter) (r : Request) (err : String)
    (hrun : rt.ExecuteTemplate templateName (pageData rt title env viteAsset now) =
      { writes := [], err := some err })
    (hw : w.wroteHeader = false) :
    (servePage rt templateName title env viteAsset now w r).w.status = 500 ∧
    (servePage rt templateName title env viteAsset now w r).logged =
      ["Template error: " ++ err] ∧
    (env = "development" →
      (servePage rt templateName title env viteAsset now w r).w.body =
        w.body ++ ("Template Error: " ++ err ++ "\n")) ∧
    (env ≠ "development" →
      (servePage rt templateName title env viteAsset now w r).w.body =
        w.body ++ "Internal Server Error\n") := by
  by_cases henv : env = "development"
  · subst henv
    have h1 := Error_fresh (w.setHeader "Content-Type" "text/html; charset=utf-8")
      ("Template Error: " ++ err) 500 hw
    simp only [servePage, hrun, List.foldl_nil, StatusInternalServerError]
    simp only [bne_self_eq_false, Bool.false_eq_true, if_false, beq_self_eq_true, if_true]
    refine ⟨h1.1, trivial, fun _ => h1.2, fun h => absurd rfl h⟩
  · have hw2 : ((w.setHeader "Content-Type" "text/html; charset=utf-8").setHeader
        "Cache-Control" "no-cache, must-revalidate").wroteHeader = false := hw
    have h1 := Error_fresh _ "Internal Server Error" 500 hw2
    have hne : (env != "development") = true := by simpa using henv
    have hne2 : (env == "development") = false := by simpa using henv
    simp only [servePage, hrun, hne, hne2, List.foldl_nil, StatusInternalServerError,
      if_true, Bool.false_eq_true, if_false]
    refine ⟨h1.1, trivial, fun h => absurd h henv, fun _ => ?_⟩
    rw [h1.2]
    rfl

/-- Witness of `servePage_error_before_output`: an undefined template in production. -/
theorem servePage_error_before_output_witness :
    (servePage failingAtOnce "home.html" "React Islands Demo" "production" productionAsset
        0 ResponseWriter.fresh (getRequest "/")).w.status = 500 ∧
    (servePage failingAtOnce "home.html" "React Islands Demo" "production" productionAsset
        0 ResponseWriter.fresh (getRequest "/")).w.body = "Internal Server Error\n" := by
  have h := servePage_error_before_output failingAtOnce "home.html" "React Islands Demo"
    "production" productionAsset 0 ResponseWriter.fresh (getRequest "/")
    "html/template: home.html is undefined" (by decide) (by decide)
  exact ⟨h.1, h.2.2.2 (by decide)⟩

/-- C9: the `PageData` a page handler passes to its template is the same for every two
requests (and responses) handled at the same clock reading: its fields are the title, the
environment and the asset provider given to `servePage`, the formatted clock reading, and
the fixed `InitialData`; none is derived from the request. -/
theorem servePage_data_request_independent (rt : Runtime) (templateName title env : String)
    (viteAsset : ViteAsset) (now : Nat) (w1 w2 : ResponseWriter) (r1 r2 : Request) :
    (servePage rt templateName title env viteAsset now w1 r1).data =
      (servePage rt templateName title env viteAsset now w2 r2).data ∧
    (servePage rt templateName title env viteAsset now w1 r1).data =
      { Title := title, CurrentTime := rt.formatRFC3339 now, ENV := env, Vite := viteAsset
        InitialData :=
          [("user", Value.map [("id", Value.int 123), ("name", Value.str "John Doe")])] } := by
  have hdata : ∀ (w : ResponseWriter) (r : Request),
      (servePage rt templateName title env viteAsset now w r).data =
        pageData rt title env viteAsset now := by
    intro w r
    unfold servePage
    simp only
    split
    · split <;> rfl
    · rfl
  rw [hdata w1 r1, hdata w2 r2]
  exact ⟨rfl, rfl⟩

/-! ### main -/

/-- C3: the configuration `main` hands to `vite.NewViteAsset` depends on the mode. In
`development` it carries the configured dev-server URL and no manifest path, entry point,
platform or assets path. In every other mode it carries the manifest path
`filepath.Join(AssetsPath, "manifest.json")`, the entry point `src/islands-client.js`, the
platform `react`, the assets path, and no dev-server URL. -/
theorem viteConfig_by_mode (config : Config) :
    (config.Env = "development" →
      viteConfig config =
        { Environment := "development", FS := none, DevServerURL := config.DevServerURL
          EntryPoint := "", Platform := "", AssetsPath := "", ManifestPath := "" }) ∧
    (config.Env ≠ "development" →
      viteConfig config =
        { Environment := config.Env, FS := none, DevServerURL := ""
          EntryPoint := "src/islands-client.js", Platform := "react"
          AssetsPath := config.AssetsPath
          ManifestPath := Join [config.AssetsPath, "manifest.json"] }) ∧
    (∀ (p : Host) (rt : Runtime), p.ParseFS = .ok rt →
      config = loadConfig p.unicodeToLower p.environ →
      (main p).events.head? = some (.newViteAsset (viteConfig config))) := by
  refine ⟨?_, ?_, ?_⟩
  · intro h
    simp [viteConfig, h]
  · intro h
    simp [viteConfig, h]
  · intro p rt hrt hcfg
    subst hcfg
    unfold main
    simp only [hrt]
    split <;> rfl

/-- Witness of `viteConfig_by_mode`: the default development configuration and a production
configuration with assets path `./static`. -/
theorem viteConfig_by_mode_witness :
    viteConfig developmentConfig =
      { Environment := "development", DevServerURL := "http://localhost:5173" } ∧
    viteConfig productionConfig =
      { Environment := "production", EntryPoint := "src/islands-client.js", Platform := "react"
        AssetsPath := "./static", ManifestPath := "static/manifest.json" } ∧
    (main malformedManifestHost).events.head? =
      some (.newViteAsset (viteConfig productionConfig)) :=
  ⟨(viteConfig_by_mode developmentConfig).1 (by decide),
    ((viteConfig_by_mode productionConfig).2.1 (by decide)).trans (by decide),
    (viteConfig_by_mode productionConfig).2.2 malformedManifestHost failingAtOnce rfl
      (by decide)⟩

/-- C2: if `vite.NewViteAsset` returns an error for the configuration `main` builds, `main`
never constructs the server nor listens, and the asset library is asked at most once, with
that configuration only (no second attempt with a development configuration); once the
templates have parsed, the run is exactly that one call followed by the fatal exit
`Failed to create Vite asset: <err>`. -/
theorem main_fatal_on_asset_error (p : Host) (err : String)
    (h : p.NewViteAsset (viteConfig (loadConfig p.unicodeToLower p.environ)) = .error err) :
    (∀ addr, Event.serverConstructed addr ∉ (main p).events ∧
      Event.listenAndServe addr ∉ (main p).events) ∧
    (∀ vc, Event.newViteAsset vc ∈ (main p).events →
      vc = viteConfig (loadConfig p.unicodeToLower p.environ)) ∧
    (main p).events.length ≤ 1 ∧
    (∀ rt, p.ParseFS = .ok rt →
      main p =
        { events := [.newViteAsset (viteConfig (loadConfig p.unicodeToLower p.environ))]
          exit := .fatal ("Failed to create Vite asset: " ++ err) }) := by
  cases hp : p.ParseFS with
  | error e =>
    have hm : main p = { events := [], exit := .panic e } := by
      unfold main
      simp only [hp]
    rw [hm]
    simp
  | ok rt0 =>
    have hm : main p =
        { events := [.newViteAsset (viteConfig (loadConfig p.unicodeToLower p.environ))]
          exit := .fatal ("Failed to create Vite asset: " ++ err) } := by
      unfold main
      simp only [hp, h]
    rw [hm]
    simp

/-- Witness of `main_fatal_on_asset_error`: a production host with a malformed manifest. -/
theorem main_fatal_on_asset_error_witness :
    main malformedManifestHost =
      { events := [.newViteAsset
          { Environment := "production", EntryPoint := "src/islands-client.js"
            Platform := "react", AssetsPath := "./static"
            ManifestPath := "static/manifest.json" }]
        exit := .fatal "Failed to create Vite asset: invalid character in manifest" } :=
  ((main_fatal_on_asset_error malformedManifestHost "invalid character in manifest"
    rfl).2.2.2 failingAtOnce rfl).trans (by decide)

/-! ### Resolve -/

theorem lookup_eq_none_iff (m : AssetManifest) (key : String) :
    m.lookup key = none ↔ key ∉ m.map Prod.fst := by
  induction m with
  | nil => simp [AssetManifest.lookup]
  | cons kv rest ih =>
    obtain ⟨k, v⟩ := kv
    by_cases hk : k = key
    · simp [AssetManifest.lookup, hk]
    · have hk2 : ¬ key = k := fun h => hk h.symm
      simp [AssetManifest.lookup, hk, hk2, ih]

theorem mem_addNew_left (acc new : List String) (c : String) (h : c ∈ acc) :
    c ∈ addNew acc new := by
  unfold addNew
  induction new generalizing acc with
  | nil => simpa using h
  | cons x xs ih =>
    simp only [List.foldl_cons]
    apply ih
    by_cases hx : x ∈ acc
    · simpa [hx] using h
    · simp [hx, h]

theorem mem_addNew_right (acc new : List String) (c : String) (h : c ∈ new) :
    c ∈ addNew acc new := by
  induction new generalizing acc with
  | nil => simp at h
  | cons x xs ih =>
    have hstep : addNew acc (x :: xs) = addNew (if x ∈ acc then acc else acc ++ [x]) xs := by
      simp [addNew]
    rw [hstep]
    rcases List.mem_cons.mp h with rfl | h
    · apply mem_addNew_left
      by_cases hx : c ∈ acc
      · simp [hx]
      · simp [hx]
    · exact ih _ h

theorem walk_css_mono (m : AssetManifest) (stack : List String) (st : Walk) (c : String)
    (h : c ∈ st.css) : c ∈ (walk m stack st).css := by
  induction stack, st using walk.induct m with
  | case1 st => rw [walk]; exact h
  | case2 st key rest hs ih => rw [walk]; simp only [hs, dite_true]; exact ih h
  | case3 st key rest hs hl ih =>
    rw [walk]
    simp only [hs, dite_false]
    split
    · exact ih h
    · rename_i e2 hl2
      rw [hl] at hl2
      exact absurd hl2 (by simp)
  | case4 st key rest hs e hl ih =>
    rw [walk]
    simp only [hs, dite_false]
    split
    · rename_i hl2
      rw [hl] at hl2
      exact absurd hl2 (by simp)
    · rename_i e2 hl2
      rw [hl] at hl2
      cases hl2
      exact ih (mem_addNew_left _ _ _ h)

theorem before_last (front : List Tag) (last : Tag) (hfront : ∀ t ∈ front, t.kind ≠ .script)
    (hlast : last.kind = .script) (i j : Nat) (hi : i < (front ++ [last]).length)
    (hj : j < (front ++ [last]).length) (hci : (front ++ [last])[i].kind = .stylesheet)
    (hcj : (front ++ [last])[j].kind = .script) : i < j := by
  have hlen : (front ++ [last]).length = front.length + 1 := by simp
  have hjlast : ¬ j < front.length := by
    intro hlt
    rw [List.getElem_append_left hlt] at hcj
    exact hfront _ (List.getElem_mem _) hcj
  have hifront : i < front.length := by
    by_contra hge
    have hieq : i = front.length := by omega
    subst hieq
    rw [List.getElem_append_right (Nat.le_refl _)] at hci
    simp only [Nat.sub_self, List.getElem_cons_zero] at hci
    rw [hlast] at hci
    exact absurd hci (by decide)
  omega

/-- C4: in production mode, `Resolve` of an entry point that is no key of the manifest is
the error `EntryNotFoundError`; it is no successful result, the empty asset list included. -/
theorem Resolve_entry_not_found (manifest : AssetManifest) (entryPoint : String)
    (h : entryPoint ∉ manifest.map Prod.fst) :
    Resolve entryPoint (.production manifest) = .error (.EntryNotFoundError entryPoint) ∧
    (∀ tags, Resolve entryPoint (.production manifest) ≠ .ok tags) ∧
    Resolve entryPoint (.production manifest) ≠ .ok [] := by
  have hl := (lookup_eq_none_iff manifest entryPoint).mpr h
  have hr : Resolve entryPoint (.production manifest) =
      .error (.EntryNotFoundError entryPoint) := by
    simp only [Resolve, hl]
  rw [hr]
  exact ⟨rfl, fun tags => by simp, by simp⟩

/-- Witness of `Resolve_entry_not_found`: `src/missing.js` in the scenario manifest. -/
theorem Resolve_entry_not_found_witness :
    Resolve "src/missing.js" (.production scenarioManifest) =
      .error (.EntryNotFoundError "src/missing.js") :=
  (Resolve_entry_not_found scenarioManifest "src/missing.js" (by decide)).1

/-- C5: in production mode, `Resolve` of an entry point that is a key of the manifest
succeeds with a tag sequence that ends in the entry script and holds no other script tag,
that holds a stylesheet tag for every CSS file of the entry, and in which every stylesheet
tag stands before the entry script tag. -/
theorem Resolve_css_before_script (manifest : AssetManifest) (entryPoint : String)
    (h : entryPoint ∈ manifest.map Prod.fst) :
    ∃ (e : ManifestEntry) (tags : List Tag),
      manifest.lookup entryPoint = some e ∧
      Resolve entryPoint (.production manifest) = .ok tags ∧
      (∃ front, tags = front ++ [{ kind := .script, url := e.file }] ∧
        ∀ t ∈ front, t.kind ≠ .script) ∧
      (∀ c ∈ e.css, { kind := .stylesheet, url := c } ∈ tags) ∧
      (∀ (i j : Nat) (hi : i < tags.length) (hj : j < tags.length),
        tags[i].kind = .stylesheet → tags[j].kind = .script → i < j) := by
  cases hl : manifest.lookup entryPoint with
  | none => exact absurd h ((lookup_eq_none_iff manifest entryPoint).mp hl)
  | some e =>
    have hfront : ∀ t ∈
        (walk manifest e.imports
            { seen := [entryPoint], css := addNew [] e.css, chunks := [] }).css.map
          (fun u => ({ kind := .stylesheet, url := u } : Tag)) ++
        (walk manifest e.imports
            { seen := [entryPoint], css := addNew [] e.css, chunks := [] }).chunks.map
          (fun u => ({ kind := .modulepreload, url := u } : Tag)),
        t.kind ≠ .script := by
      intro t ht
      rcases List.mem_append.mp ht with ht | ht
      · obtain ⟨u, _, rfl⟩ := List.mem_map.mp ht
        simp
      · obtain ⟨u, _, rfl⟩ := List.mem_map.mp ht
        simp
    refine ⟨e, _, rfl, ?_, ⟨_, rfl, hfront⟩, ?_, ?_⟩
    · simp only [Resolve, hl]
    · intro c hc
      apply List.mem_append_left
      apply List.mem_append_left
      apply List.mem_map_of_mem
      exact walk_css_mono _ _ _ _ (mem_addNew_right _ _ _ hc)
    · intro i j hi hj hci hcj
      exact before_last _ _ hfront rfl i j hi hj hci hcj

/-- Witness of `Resolve_css_before_script`: the scenario of the specification, whose resolved
sequence is the stylesheet followed by the entry script. -/
theorem Resolve_css_before_script_witness :
    Resolve "src/main.js" (.production scenarioManifest) =
      .ok [{ kind := .stylesheet, url := "assets/main-def456.css" },
        { kind := .script, url := "assets/main-abc123.js" }] ∧
    ∃ (e : ManifestEntry) (tags : List Tag),
      scenarioManifest.lookup "src/main.js" = some e ∧
      Resolve "src/main.js" (.production scenarioManifest) = .ok tags ∧
      (∃ front, tags = front ++ [{ kind := .script, url := e.file }] ∧
        ∀ t ∈ front, t.kind ≠ .script) ∧
      (∀ c ∈ e.css, { kind := .stylesheet, url := c } ∈ tags) ∧
      (∀ (i j : Nat) (hi : i < tags.length) (hj : j < tags.length),
        tags[i].kind = .stylesheet → tags[j].kind = .script → i < j) :=
  ⟨by simp [Resolve, scenarioManifest, AssetManifest.lookup, walk, addNew],
    Resolve_css_before_script scenarioManifest "src/main.js" (by decide)⟩

end GoIslands
